import Mathlib

/-!
Shallow embedding of the codx VS Code extension (src/src/extension.ts and the
unnamed near-duplicate revisions) and proofs about its prompt-dispatch and
response-application pipeline: the response sanitizer (code-fence stripping,
JSON extraction), the model registry and client lookup, the debounced
triggers, the diagnostic mapper, and the activation / teardown behaviour.

External host builtins (VS Code editor API, Node timers, JSON.parse) are the
runtime the extension plugs into; where the repository code calls them, the
embedding models their documented behaviour explicitly (timers as a quiet
period over a timeline of invocation instants, JSON.parse as an abstract
parse function passed as a parameter, the diagnostic collection as a map
from document identity to a diagnostic list).

Strings are handled at the character-list level so that every definition
evaluates inside the kernel.
-/

namespace Codx

/-! ## Response Sanitizer: code-fence stripping

Two independent stripping implementations exist in the source.

The format command (src/src/extension.ts line 388, and the revision in
src/unnamed/part_000 line 247) computes

  formattedCode.replace(/^[\w]*\n?/, '').replace(/\n?$/, '')

The JS regex /^[\w]*\n?/ is anchored at the start: it greedily consumes a
run of word characters ([A-Za-z0-9_]) and then at most one newline, and
that prefix is deleted.  The regex /\n?$/ matches leftmost-first; its first
match is the final newline when the string ends in one, and the empty match
at the end of the string otherwise, so the replace deletes at most one
trailing newline.  Note the pattern contains no backtick characters.

The fix command (src/src/extension.ts line 917, src/unnamed/part_000
line 596) computes

  fixedCode.replace(/^```[\w]*\n?/, '').replace(/\n?```$/, '')

The leading regex only matches when the string starts with three backticks;
it then consumes an optional language tag (word characters) and at most one
newline.  The trailing regex only matches when the string ends with three
backticks, optionally consuming one newline immediately before them; by
leftmost-first matching the deleted suffix is the final three backticks
plus at most one preceding newline.
-/

/-- JS regex word-character class [\w]: ASCII letters, digits and underscore. -/
def isWordChar (c : Char) : Bool := c.isAlphanum || c = '_'

/-- The format-command cleanup of src/src/extension.ts line 388 on a
character list: the first replace deletes the maximal leading
word-character run plus at most one newline, the second replace deletes at
most one trailing newline. -/
def stripFormatL (l : List Char) : List Char :=
  let r1 := l.dropWhile isWordChar
  let r2 := match r1 with
    | '\n' :: t => t
    | _ => r1
  match r2.getLast? with
  | some '\n' => r2.dropLast
  | _ => r2

/-- The format-command cleanup of src/src/extension.ts line 388. -/
def stripFormat (s : String) : String := ⟨stripFormatL s.data⟩

/-- First replace of the fix-command cleanup (src/src/extension.ts
line 917): delete one leading fence opener (three backticks, an optional
word-character language tag, at most one newline), if present. -/
def stripFixLeadL (l : List Char) : List Char :=
  match l with
  | '`' :: '`' :: '`' :: rest =>
    let r := rest.dropWhile isWordChar
    match r with
    | '\n' :: t => t
    | _ => r
  | _ => l

/-- Second replace of the fix-command cleanup (src/src/extension.ts
line 917): delete one trailing fence closer (three backticks and at most
one newline immediately before them), if present. -/
def stripFixTrailL (l : List Char) : List Char :=
  match l.reverse with
  | '`' :: '`' :: '`' :: r =>
    (match r with
     | '\n' :: r2 => r2
     | _ => r).reverse
  | _ => l

/-- The fix-command cleanup of src/src/extension.ts line 917, leading
replace applied first, then the trailing replace, as in the source. -/
def stripFix (s : String) : String := ⟨stripFixTrailL (stripFixLeadL s.data)⟩

/-- C1: the claim states that code-fence stripping is idempotent on
already-unfenced input for both implementations.  Evaluating the code at
the unfenced input "ab\ncd" (it carries no fence marker at either end):
the format-command implementation maps it to "cd" and a second application
maps "cd" to "", so strip(strip(x)) differs from strip(x) there; the
fix-command implementation is idempotent on this input.  The format-path
regex lacks the three backticks that its own comment ("Remove code block
markers if present", src/unnamed/part_000 line 246) and the fix-path
regex both have, so it deletes a leading word-run instead of a fence. -/
theorem c1_format_strip_not_idempotent :
    stripFormat "ab\ncd" = "cd" ∧
    stripFormat (stripFormat "ab\ncd") = "" ∧
    stripFormat (stripFormat "ab\ncd") ≠ stripFormat "ab\ncd" ∧
    stripFix (stripFix "ab\ncd") = stripFix "ab\ncd" := by
  decide

/-- C3: the claim states that stripping does not touch inputs containing
no fence markers at all, for both implementations.  Evaluating the code at
the fence-free input "hello": the format-command implementation deletes
the whole string (its regex strips a leading word-run, not a fence), while
the fix-command implementation leaves the input unchanged as claimed. -/
theorem c3_format_strip_alters_fence_free_input :
    stripFormat "hello" = "" ∧
    stripFormat "hello" ≠ "hello" ∧
    stripFix "hello" = "hello" := by
  decide

/-! ## Model Registry and client lookup

src/src/extension.ts lines 5-19 define the data model, lines 22-72 the
static profile table AVAILABLE_MODELS, line 82-89 createClient, lines 91-97
getCurrentClient.  JS Map is modelled as an insertion-ordered association
list: Map.get is the first binding with the given key,
Map.values().next().value is the value of the first binding.  The JS
short-circuit x || y on numbers treats 0 (and undefined) as falsy, and on
objects only undefined is falsy, which the jsOr helpers mirror. -/

/-- JS value || default on an optional rational (0 and undefined are falsy). -/
def jsOrQ (v : Option ℚ) (d : ℚ) : ℚ :=
  match v with
  | none => d
  | some x => if x = 0 then d else x

/-- JS value || default on an optional natural number (0 and undefined are falsy). -/
def jsOrNat (v : Option Nat) (d : Nat) : Nat :=
  match v with
  | none => d
  | some x => if x = 0 then d else x

/-- ModelConfig of src/src/extension.ts lines 5-11. -/
structure ModelConfig where
  name : String
  displayName : String
  description : String
  maxTokens : Option Nat
  temperature : Option ℚ
deriving DecidableEq

/-- A ChatMistralAI client handle as constructed by createClient
(src/src/extension.ts lines 82-89). -/
structure MistralClient where
  apiKey : String
  modelName : String
  temperature : ℚ
  maxTokens : Nat
deriving DecidableEq

/-- The static AVAILABLE_MODELS table of src/src/extension.ts lines 22-72. -/
def AVAILABLE_MODELS : List ModelConfig :=
  [⟨"codestral-2501", "Codestral 2501",
    "Latest code-specialized model (recommended for coding)",
    some 32768, some 0.1⟩,
   ⟨"codestral-latest", "Codestral Latest",
    "Always the latest Codestral model",
    some 32768, some 0.1⟩,
   ⟨"mistral-large-latest", "Mistral Large Latest",
    "Most capable model for complex reasoning",
    some 32768, some 0.7⟩,
   ⟨"mistral-small-latest", "Mistral Small Latest",
    "Fast and efficient for simple tasks",
    some 32768, some 0.7⟩,
   ⟨"open-mistral-7b", "Open Mistral 7B",
    "Open source model, good for general tasks",
    some 32768, some 0.7⟩,
   ⟨"open-mixtral-8x7b", "Open Mixtral 8x7B",
    "Mixture of experts model, balanced performance",
    some 32768, some 0.7⟩,
   ⟨"open-mixtral-8x22b", "Open Mixtral 8x22B",
    "Larger mixture of experts model",
    some 65536, some 0.7⟩]

/-- createClient of src/src/extension.ts lines 82-89: the temperature and
token ceiling fall back through || to 0.7 and 32768. -/
def createClient (apiKey : String) (m : ModelConfig) : MistralClient :=
  ⟨apiKey, m.name, jsOrQ m.temperature 0.7, jsOrNat m.maxTokens 32768⟩

/-- JS Map.get on an insertion-ordered association list. -/
def mapGet (m : List (String × α)) (k : String) : Option α :=
  (m.find? (fun p => p.1 == k)).map (fun p => p.2)

/-- JS Map.values().next().value: the first value in insertion order. -/
def mapFirstValue (m : List (String × α)) : Option α :=
  m.head?.map (fun p => p.2)

/-- The models map built in activate (src/src/extension.ts lines 108-114):
one binding per AVAILABLE_MODELS entry, keyed by name. -/
def buildModels : List (String × ModelConfig) :=
  AVAILABLE_MODELS.map (fun m => (m.name, m))

/-- The clients map built in activate (src/src/extension.ts lines 108-114):
one client per AVAILABLE_MODELS entry, keyed by name. -/
def buildClients (apiKey : String) : List (String × MistralClient) :=
  AVAILABLE_MODELS.map (fun m => (m.name, createClient apiKey m))

/-- getCurrentClient of src/src/extension.ts lines 91-97:
clients.get(currentModel) || clients.values().next().value, throwing when
both are undefined.  The thrown Error is modelled as the error branch of
Except. -/
def getCurrentClient (clients : List (String × MistralClient))
    (currentModel : String) : Except String MistralClient :=
  match (mapGet clients currentModel).orElse (fun _ => mapFirstValue clients) with
  | some c => Except.ok c
  | none => Except.error "No MistralAI client available"

/-- C4: for every profile identity and every non-empty registry,
getCurrentClient returns the client registered under that identity when it
is present, otherwise the first registry entry, and never raises; the
error branch is taken exactly on the empty registry. -/
theorem getCurrentClient_fallback_spec (clients : List (String × MistralClient))
    (currentModel : String) (hne : clients ≠ []) :
    (getCurrentClient clients currentModel).isOk = true ∧
    (∀ c, mapGet clients currentModel = some c →
      getCurrentClient clients currentModel = Except.ok c) ∧
    (mapGet clients currentModel = none →
      getCurrentClient clients currentModel = Except.ok (clients.head hne).2) ∧
    getCurrentClient [] currentModel =
      Except.error "No MistralAI client available" := by
  refine ⟨?_, ?_, ?_, rfl⟩
  · cases h : mapGet clients currentModel with
    | some c => simp [getCurrentClient, h, Option.orElse, Except.isOk, Except.toBool]
    | none =>
      simp [getCurrentClient, h, Option.orElse, mapFirstValue,
        List.head?_eq_head hne, Except.isOk, Except.toBool]
  · intro c h
    simp [getCurrentClient, h, Option.orElse]
  · intro h
    simp [getCurrentClient, h, Option.orElse, mapFirstValue,
      List.head?_eq_head hne]

/-- Witness for C4: on a concrete one-entry registry and an identity that
is not registered, lookup succeeds (falling back) rather than raising. -/
theorem getCurrentClient_fallback_spec_witness :
    (getCurrentClient [("codestral-2501", ⟨"k", "codestral-2501", 0.1, 32768⟩)]
      "unknown-model").isOk = true :=
  (getCurrentClient_fallback_spec
    [("codestral-2501", ⟨"k", "codestral-2501", 0.1, 32768⟩)]
    "unknown-model" (by simp)).1

/-! ## Current-model selection dynamics

src/src/extension.ts lines 117-118 sanitize the persisted identity at
activation; lines 160-165 (quick-pick selection) and lines 1396-1401
(per-language recommendation switch) are the only writes to
state.currentModel afterwards. -/

/-- The initializer of src/src/extension.ts lines 117-118:
models.has(savedModel) ? savedModel : the codestral-2501 default. -/
def initialCurrentModel (savedModel : String) : String :=
  if (mapGet buildModels savedModel).isSome then savedModel else "codestral-2501"

/-- The code-language table of recommendModel
(src/src/extension.ts line 1372). -/
def codeLanguages : List String :=
  ["javascript", "typescript", "python", "java", "cpp", "c", "csharp",
   "go", "rust", "php"]

/-- recommendModel of src/src/extension.ts lines 1371-1381. -/
def recommendModel (currentModel : String) (languageId : String) : String :=
  if languageId ∈ codeLanguages then "codestral-2501"
  else if languageId = "markdown" ∨ languageId = "plaintext" then
    "mistral-large-latest"
  else currentModel

/-- One write to state.currentModel after activation: either the quick-pick
selection (whose items are exactly the registered model names,
src/src/extension.ts lines 148-165) or the accepted per-language
recommendation (lines 1396-1401). -/
inductive ModelStep : String → String → Prop where
  | select (cur next : String) (h : (mapGet buildModels next).isSome = true) :
      ModelStep cur next
  | recommendSwitch (cur languageId : String) :
      ModelStep cur (recommendModel cur languageId)

/-- The reachable values of state.currentModel: an initial sanitized value
followed by any number of writes. -/
inductive ReachableModel : String → Prop where
  | init (savedModel : String) : ReachableModel (initialCurrentModel savedModel)
  | step (cur next : String) : ReachableModel cur → ModelStep cur next →
      ReachableModel next

/-- Two association lists built over the same profile list with the same
keys agree on which keys are present. -/
theorem mapGet_map_isSome {α β : Type} (l : List ModelConfig)
    (f : ModelConfig → α) (g : ModelConfig → β) (k : String) :
    (mapGet (l.map fun m => (m.name, f m)) k).isSome =
    (mapGet (l.map fun m => (m.name, g m)) k).isSome := by
  induction l with
  | nil => rfl
  | cons m rest ih =>
    simp only [List.map_cons, mapGet, List.find?_cons] at ih ⊢
    cases h : (m.name == k) with
    | true => simp [h]
    | false => simpa [h] using ih

/-- Keys of the two activation maps coincide entry by entry. -/
theorem mapGet_buildClients_isSome (apiKey : String) (k : String) :
    (mapGet (buildClients apiKey) k).isSome = (mapGet buildModels k).isSome :=
  mapGet_map_isSome AVAILABLE_MODELS (createClient apiKey) (fun m => m) k

/-- C9: in every reachable state, currentModel names a registered model, so
getCurrentClient finds it in the clients map directly and the fallback and
error branches are not taken. -/
theorem currentModel_invariant (cur : String) (h : ReachableModel cur) :
    (mapGet buildModels cur).isSome = true ∧
    ∀ apiKey, ∃ c, mapGet (buildClients apiKey) cur = some c ∧
      getCurrentClient (buildClients apiKey) cur = Except.ok c := by
  have mem : (mapGet buildModels cur).isSome = true := by
    induction h with
    | init savedModel =>
      unfold initialCurrentModel
      split
      · assumption
      · decide
    | step cur next hr hs ih =>
      cases hs with
      | select next h => exact h
      | recommendSwitch languageId =>
        unfold recommendModel
        split
        · decide
        · split
          · decide
          · exact ih
  refine ⟨mem, fun apiKey => ?_⟩
  have h2 : (mapGet (buildClients apiKey) cur).isSome = true := by
    rw [mapGet_buildClients_isSome]; exact mem
  obtain ⟨c, hc⟩ := Option.isSome_iff_exists.mp h2
  exact ⟨c, hc, by simp [getCurrentClient, hc, Option.orElse]⟩

/-- Witness for C9: the initializer applied to an unknown persisted
identity yields a registered model name. -/
theorem currentModel_invariant_witness :
    (mapGet buildModels (initialCurrentModel "bogus-model")).isSome = true :=
  (currentModel_invariant (initialCurrentModel "bogus-model")
    (ReachableModel.init "bogus-model")).1

/-! ## Activation gating on the API key

src/src/extension.ts lines 99-114: activate reads codx.apiKey with default
empty string; if it is falsy (the empty string) it shows an error message
and returns before any client construction, command or provider
registration, or listener installation.  The trace below lists the
externally visible activation effects in source order. -/

/-- One externally visible effect of activate. -/
inductive ActivationEffect where
  | showError (msg : String)
  | createClientFor (modelName : String)
  | createDiagnosticCollection
  | createTreeView
  | registerCommand (name : String)
  | registerProvider (kind : String)
  | addListener (kind : String)
  | createDecorationType
  | createStatusBarItem
  | setHealthCheckInterval
  | showActivationInfo (currentModel : String)
deriving DecidableEq

/-- The effect trace of activate (src/src/extension.ts lines 99-1494) as a
function of the configured API key and the persisted model identity: an
empty key aborts after the error message; otherwise the clients are
created and every command, provider and listener is registered in source
order. -/
def activateTrace (apiKey : String) (savedModel : String) :
    List ActivationEffect :=
  if apiKey = "" then
    [ActivationEffect.showError
      "MistralAI API key is not configured. Please set it in VS Code settings (codx.apiKey)."]
  else
    AVAILABLE_MODELS.map (fun m => ActivationEffect.createClientFor m.name) ++
    [ActivationEffect.createDiagnosticCollection,
     ActivationEffect.createTreeView,
     ActivationEffect.registerCommand "codx.selectModel",
     ActivationEffect.registerProvider "completion",
     ActivationEffect.createDecorationType,
     ActivationEffect.addListener "onDidChangeTextEditorSelection",
     ActivationEffect.registerCommand "codx.refactorCode",
     ActivationEffect.addListener "onDidChangeTextDocument",
     ActivationEffect.registerCommand "codx.explainCode",
     ActivationEffect.registerCommand "codx.formatCode",
     ActivationEffect.registerCommand "codx.askWithFileContext",
     ActivationEffect.registerCommand "codx.openChat",
     ActivationEffect.registerProvider "codeAction",
     ActivationEffect.registerCommand "codx.fixCode",
     ActivationEffect.registerCommand "codx.compareModels",
     ActivationEffect.createStatusBarItem,
     ActivationEffect.registerCommand "codx.showModelInfo",
     ActivationEffect.registerCommand "codx.contextRefactor",
     ActivationEffect.registerCommand "codx.contextExplain",
     ActivationEffect.registerCommand "codx.contextFormat",
     ActivationEffect.registerCommand "codx.statusBarMenu",
     ActivationEffect.registerProvider "hover",
     ActivationEffect.registerProvider "workspaceSymbol",
     ActivationEffect.addListener "onDidChangeConfiguration",
     ActivationEffect.addListener "onDidChangeActiveTextEditor",
     ActivationEffect.setHealthCheckInterval,
     ActivationEffect.registerCommand "codx.quickRefactor",
     ActivationEffect.registerCommand "codx.quickExplain",
     ActivationEffect.registerCommand "codx.quickFormat",
     ActivationEffect.registerCommand "codx.quickChat",
     ActivationEffect.showActivationInfo (initialCurrentModel savedModel)]

/-- C8: an empty API key is fatal to activation: the trace is exactly the
user-visible error message, so no client is constructed and no command,
provider or listener is registered. -/
theorem activation_aborts_without_key (apiKey savedModel : String)
    (h : apiKey = "") :
    activateTrace apiKey savedModel =
      [ActivationEffect.showError
        "MistralAI API key is not configured. Please set it in VS Code settings (codx.apiKey)."] ∧
    (∀ n, ActivationEffect.registerCommand n ∉ activateTrace apiKey savedModel) ∧
    (∀ n, ActivationEffect.createClientFor n ∉ activateTrace apiKey savedModel) ∧
    (∀ k, ActivationEffect.registerProvider k ∉ activateTrace apiKey savedModel) ∧
    (∀ k, ActivationEffect.addListener k ∉ activateTrace apiKey savedModel) := by
  subst h
  refine ⟨rfl, ?_, ?_, ?_, ?_⟩ <;> intro x <;> simp [activateTrace]

/-- Witness for C8: the concrete empty-key activation trace. -/
theorem activation_aborts_without_key_witness :
    activateTrace "" "codestral-2501" =
      [ActivationEffect.showError
        "MistralAI API key is not configured. Please set it in VS Code settings (codx.apiKey)."] :=
  (activation_aborts_without_key "" "codestral-2501" rfl).1

/-! ## Debounced Trigger

debounce (src/src/extension.ts lines 74-80, src/unnamed/part_000
lines 12-18) keeps one mutable timer handle per wrapped function: each
invocation calls clearTimeout on the pending handle and setTimeout of the
wrapped handler with the current arguments after the quiet period.

The embedding replays a finite timeline of invocation instants
(time, arguments), listed in increasing time order, and computes the list
of handler firings (firing time, arguments).  The timer set at an
invocation fires at its deadline unless a later invocation clears it
strictly before the deadline; a timer whose deadline t + D has been
reached when the next invocation arrives (t + D less than or equal to the
next instant) has already run and cannot be cleared.  This mirrors Node
timer semantics: setTimeout runs the callback once the delay has elapsed,
clearTimeout only cancels a callback that has not yet run.

Teardown (the disposal of context.subscriptions plus deactivate,
src/src/extension.ts lines 1467-1498) disposes the event listeners that
feed the two debounced functions, so invocations at or after the teardown
instant never happen; but no disposable and no code in deactivate calls
clearTimeout on the debounce timer handles (only the health-check interval
is cleared, line 1487), so a pending debounce timer survives teardown and
still fires at its deadline. -/

/-- Handler firings produced by a debounced function over a timeline of
invocation instants: the timer set by an invocation fires at its deadline
unless the next invocation arrives strictly before the deadline and clears
it; the timer set by the last invocation always fires. -/
def debounceFirings (D : Nat) : List (Nat × α) → List (Nat × α)
  | [] => []
  | [(t, a)] => [(t + D, a)]
  | (t, a) :: (u, b) :: rest =>
    (if t + D ≤ u then [(t + D, a)] else []) ++
      debounceFirings D ((u, b) :: rest)

/-- A strictly increasing timeline has its first instant at or before its
last instant. -/
theorem chain_head_le_getLast (l : List (Nat × α)) (h : l ≠ [])
    (hm : l.Chain' (fun p q => p.1 < q.1)) :
    (l.head h).1 ≤ (l.getLast h).1 := by
  induction l with
  | nil => exact absurd rfl h
  | cons x rest ih =>
    cases rest with
    | nil => simp
    | cons y rest2 =>
      have hxy : x.1 < y.1 := (List.chain'_cons.mp hm).1
      have htail := ih (List.cons_ne_nil y rest2) (List.chain'_cons.mp hm).2
      rw [List.getLast_cons (List.cons_ne_nil y rest2)]
      calc x.1 ≤ y.1 := Nat.le_of_lt hxy
        _ ≤ _ := htail

/-- Core coalescing lemma: on a strictly increasing timeline whose whole
span is shorter than the quiet period, every intermediate timer is cleared
and only the last timer fires. -/
theorem debounceFirings_burst (D : Nat) (invs : List (Nat × α))
    (hne : invs ≠ [])
    (hmono : invs.Chain' (fun p q => p.1 < q.1))
    (hwin : (invs.getLast hne).1 < (invs.head hne).1 + D) :
    debounceFirings D invs =
      [((invs.getLast hne).1 + D, (invs.getLast hne).2)] := by
  induction invs with
  | nil => exact absurd rfl hne
  | cons x rest ih =>
    cases rest with
    | nil => simp [debounceFirings]
    | cons y rest2 =>
      have hne2 : y :: rest2 ≠ [] := List.cons_ne_nil y rest2
      have hxy : x.1 < y.1 := (List.chain'_cons.mp hmono).1
      have hm2 : (y :: rest2).Chain' (fun p q => p.1 < q.1) :=
        (List.chain'_cons.mp hmono).2
      have hlast : (x :: y :: rest2).getLast hne = (y :: rest2).getLast hne2 :=
        List.getLast_cons hne2
      have hylast : y.1 ≤ ((y :: rest2).getLast hne2).1 :=
        chain_head_le_getLast (y :: rest2) hne2 hm2
      have hcancel : ¬ x.1 + D ≤ y.1 := by
        intro hc
        have h1 : ((y :: rest2).getLast hne2).1 < x.1 + D := by
          rw [hlast] at hwin; exact hwin
        omega
      have hwin2 : ((y :: rest2).getLast hne2).1 < ((y :: rest2).head hne2).1 + D := by
        have h1 : ((y :: rest2).getLast hne2).1 < x.1 + D := by
          rw [hlast] at hwin; exact hwin
        have : x.1 < y.1 := hxy
        simp only [List.head_cons]
        omega
      have := ih hne2 hm2 hwin2
      simp only [debounceFirings, if_neg hcancel, List.nil_append, this, hlast]

/-- C5: given at least one invocation, all within a window shorter than
the quiet period D, the wrapped handler is called exactly once, with the
arguments of the last invocation only, at time last-invocation + D; the
earlier arguments are discarded entirely. -/
theorem debounce_coalesces_burst (D : Nat) (invs : List (Nat × α))
    (hne : invs ≠ [])
    (hmono : invs.Chain' (fun p q => p.1 < q.1))
    (hwin : (invs.getLast hne).1 < (invs.head hne).1 + D) :
    debounceFirings D invs =
      [((invs.getLast hne).1 + D, (invs.getLast hne).2)] :=
  debounceFirings_burst D invs hne hmono hwin

/-- Witness for C5: three invocations at times 0, 2, 3 with quiet period
10 produce exactly one firing, at time 13 with the third arguments. -/
theorem debounce_coalesces_burst_witness :
    debounceFirings 10 [((0 : Nat), (1 : Nat)), (2, 2), (3, 3)] = [(13, 3)] := by
  have h := debounce_coalesces_burst 10 [((0 : Nat), (1 : Nat)), (2, 2), (3, 3)]
    (by decide) (by simp [List.chain'_cons]) (by decide)
  simpa using h

/-- The invocations that can still happen given teardown at instant T:
teardown disposes the selection and document-change listeners
(src/src/extension.ts lines 241-247, 317 together with lines 1467-1488),
so no debounced invocation occurs at or after T. -/
def invocationsBeforeTeardown (T : Nat) (invs : List (Nat × α)) :
    List (Nat × α) :=
  invs.filter (fun p => p.1 < T)

/-- Debounce firings in a run torn down at instant T: the listeners stop
feeding invocations, but nothing in deactivate or in the pushed
disposables clears the debounce timer handles (deactivate,
src/src/extension.ts lines 1496-1498, only logs; the sole timer cleanup
in the subscriptions is clearInterval of the health check, line 1487), so
pending timers run to their deadlines. -/
def debounceFiringsWithTeardown (D T : Nat) (invs : List (Nat × α)) :
    List (Nat × α) :=
  debounceFirings D (invocationsBeforeTeardown T invs)

/-- C2 counterexample: a single invocation at time 0 with quiet period 10
and teardown at time 5.  The quiet period has not elapsed at teardown
(5 < 0 + 10), yet the wrapped handler still fires, at time 10, after
teardown — the claim that no scheduled call fires after teardown is false
on this input. -/
theorem debounce_teardown_counterexample :
    debounceFiringsWithTeardown 10 5 [((0 : Nat), (7 : Nat))] = [(10, 7)] ∧
    (5 : Nat) < 0 + 10 ∧
    ¬ ∀ p ∈ debounceFiringsWithTeardown 10 5 [((0 : Nat), (7 : Nat))],
        p.1 ≤ 5 := by
  decide

/-- C2 amended: teardown prevents new invocations but does not cancel an
already-scheduled debounced call: if every invocation happens before
teardown at T, the timeline is strictly increasing with span shorter than
D, and the last quiet period has not elapsed at teardown
(T < last + D), then the handler still fires exactly once, at
last + D, an instant after teardown. -/
theorem debounce_teardown_pending_fires (D T : Nat) (invs : List (Nat × α))
    (hne : invs ≠ [])
    (hmono : invs.Chain' (fun p q => p.1 < q.1))
    (hwin : (invs.getLast hne).1 < (invs.head hne).1 + D)
    (hbefore : ∀ p ∈ invs, p.1 < T)
    (hpending : T < (invs.getLast hne).1 + D) :
    debounceFiringsWithTeardown D T invs =
      [((invs.getLast hne).1 + D, (invs.getLast hne).2)] ∧
    T < (invs.getLast hne).1 + D := by
  have hfilter : invocationsBeforeTeardown T invs = invs := by
    unfold invocationsBeforeTeardown
    exact List.filter_eq_self.mpr (fun p hp => by
      simpa using hbefore p hp)
  refine ⟨?_, hpending⟩
  unfold debounceFiringsWithTeardown
  rw [hfilter]
  exact debounceFirings_burst D invs hne hmono hwin

/-- Witness for the amended C2: one invocation at time 0, quiet period 10,
teardown at time 5 — the handler fires at time 10, after teardown. -/
theorem debounce_teardown_pending_fires_witness :
    debounceFiringsWithTeardown 10 5 [((0 : Nat), (7 : Nat))] = [(0 + 10, 7)] :=
  (debounce_teardown_pending_fires 10 5 [((0 : Nat), (7 : Nat))]
    (by decide) (by simp) (by decide) (by decide) (by decide)).1

/-! ## Diagnostic Mapper

updateDiagnostics (src/src/extension.ts lines 281-315, src/unnamed/part_000
lines 144-177) parses the model response into an issue list and maps each
issue to an editor diagnostic:

  const line = Math.max(0, (issue.line || 1) - 1);
  const range = new vscode.Range(line, 0, line, document.lineAt(line).text.length);
  const severity = issue.severity === 'error' ? Error : Warning;
  new vscode.Diagnostic(range, issue.message || 'Unknown issue', severity);

Missing JSON fields are modelled as none; the JS || treats 0 and the empty
string as falsy, which jsOrInt / jsOrStr mirror.  A document is its list
of line texts; document.lineAt(line) throws when the line index is out of
range, modelled as none (the surrounding try/catch then abandons the
update). -/

/-- One entry of the JSON issue payload; absent fields are none. -/
structure Issue where
  line : Option Int
  message : Option String
  severity : Option String
deriving DecidableEq

/-- JS value || default on an optional integer (0 and undefined are falsy). -/
def jsOrInt (v : Option Int) (d : Int) : Int :=
  match v with
  | none => d
  | some x => if x = 0 then d else x

/-- JS value || default on an optional string (the empty string and
undefined are falsy). -/
def jsOrStr (v : Option String) (d : String) : String :=
  match v with
  | none => d
  | some x => if x = "" then d else x

/-- The two editor diagnostic severities used by the mapper. -/
inductive Severity where
  | error
  | warning
deriving DecidableEq

/-- The severity mapping: strict equality against the string "error",
everything else (including a missing field) becomes a warning. -/
def mapSeverity (i : Issue) : Severity :=
  if i.severity = some "error" then Severity.error else Severity.warning

/-- A vscode.Range value as built by the mapper. -/
structure Range where
  startLine : Nat
  startChar : Nat
  endLine : Nat
  endChar : Nat
deriving DecidableEq

/-- A vscode.Diagnostic value as built by the mapper. -/
structure Diagnostic where
  range : Range
  message : String
  severity : Severity
deriving DecidableEq

/-- The 0-based line computed by the mapper:
Math.max(0, (issue.line || 1) - 1). -/
def mappedLine (i : Issue) : Int := max 0 (jsOrInt i.line 1 - 1)

/-- The full mapping of one issue against a document given as its list of
line texts: a full-line range on the clamped line, the defaulted message,
the mapped severity.  The result is none when the clamped line does not
exist in the document (document.lineAt throws there). -/
def mapIssue (docLines : List String) (i : Issue) : Option Diagnostic :=
  let line := (mappedLine i).toNat
  (docLines.get? line).map fun txt =>
    ⟨⟨line, 0, line, txt.length⟩, jsOrStr i.message "Unknown issue", mapSeverity i⟩

/-- C6: for every issue carrying a line number the mapped 0-based line is
max(0, line - 1); in particular every issue whose reported line is at most
1 (including 0 and negative values) produces a range starting at document
line 0 and spanning the full text of that line. -/
theorem diagnostic_mapper_clamps (n : Int) (msg sev : Option String)
    (docLines : List String) (hne : docLines ≠ []) :
    mappedLine ⟨some n, msg, sev⟩ = max 0 (n - 1) ∧
    (n ≤ 1 →
      mapIssue docLines ⟨some n, msg, sev⟩ =
        some ⟨⟨0, 0, 0, (docLines.head hne).length⟩,
          jsOrStr msg "Unknown issue", mapSeverity ⟨some n, msg, sev⟩⟩) := by
  have hline : mappedLine ⟨some n, msg, sev⟩ = max 0 (n - 1) := by
    unfold mappedLine jsOrInt
    by_cases h : n = 0
    · subst h; simp
    · simp [h]
  refine ⟨hline, fun hn => ?_⟩
  have h0 : (mappedLine ⟨some n, msg, sev⟩).toNat = 0 := by
    rw [hline]
    omega
  obtain ⟨a, t, rfl⟩ := List.exists_cons_of_ne_nil hne
  unfold mapIssue
  rw [h0]
  simp

/-- Witness for C6: a reported line of -3 on a one-line document collapses
to a full-line range on line 0, defaulted message, warning severity. -/
theorem diagnostic_mapper_clamps_witness :
    mapIssue ["abc"] ⟨some (-3), none, some "warning"⟩ =
      some ⟨⟨0, 0, 0, "abc".length⟩, "Unknown issue", Severity.warning⟩ := by
  have h := (diagnostic_mapper_clamps (-3) none (some "warning") ["abc"]
    (by simp)).2 (by decide)
  simpa [jsOrStr, mapSeverity] using h

/-! ## Response Sanitizer: JSON extraction, and the diagnostics cycle

The parse phase of updateDiagnostics (src/src/extension.ts lines 292-302):

  const jsonMatch = responseContent.match(/(?:json)?\s*(\[[\s\S]*?\])\s*/) ||
                   responseContent.match(/(\[[\s\S]*?\])/);
  const jsonString = jsonMatch ? jsonMatch[1] : responseContent;
  issues = JSON.parse(jsonString);

Both regexes capture the same group: by leftmost-first matching with the
lazy [\s\S]*?, the captured group is the segment from the first opening
bracket of the text to the first closing bracket after it (the optional
"json" and whitespace before the group never change the group).  When the
text has no such segment both matches fail and the whole text is handed to
JSON.parse.  JSON.parse is a host builtin; it is modelled as an abstract
parse function returning none on a parse failure (the thrown SyntaxError,
which the inner catch turns into a logged early return). -/

/-- The captured JSON candidate on a character list: the segment from the
first opening bracket to the first closing bracket after it, or the whole
text when no such segment exists. -/
def extractJsonL (cs : List Char) : List Char :=
  match cs.dropWhile (fun c => c != '[') with
  | [] => cs
  | _ :: rest =>
    let inner := rest.takeWhile (fun c => c != ']')
    if inner.length < rest.length then '[' :: inner ++ [']'] else cs

/-- The string handed to JSON.parse by updateDiagnostics. -/
def extractJsonString (s : String) : String := ⟨extractJsonL s.data⟩

/-- The effect of one diagnostics cycle on the per-document diagnostic
sets (src/src/extension.ts lines 292-311): the extracted candidate is
parsed; on failure the cycle is abandoned; on success the issues are
mapped and the set stored under the document identity is fully replaced
(a mapping failure, the lineAt throw, is caught by the outer catch and
also abandons the cycle). -/
def updateDiagnosticsModel (jsonParse : String → Option (List Issue))
    (responseContent : String) (docLines : List String) (uri : String)
    (prev : String → List Diagnostic) : String → List Diagnostic :=
  match jsonParse (extractJsonString responseContent) with
  | none => prev
  | some issues =>
    match issues.mapM (mapIssue docLines) with
    | none => prev
    | some ds => fun u => if u = uri then ds else prev u

/-- C7: when no JSON array can be parsed from the model response (the
parse of the extracted candidate fails), the diagnostics update for the
cycle is abandoned and every stored diagnostic set is left unchanged; the
model is total, so no exception escapes the pipeline. -/
theorem malformed_response_preserves_diagnostics
    (jsonParse : String → Option (List Issue)) (responseContent : String)
    (docLines : List String) (uri : String) (prev : String → List Diagnostic)
    (h : jsonParse (extractJsonString responseContent) = none) :
    updateDiagnosticsModel jsonParse responseContent docLines uri prev = prev := by
  unfold updateDiagnosticsModel
  rw [h]

/-- Witness for C7: a parser that rejects everything leaves a concrete
diagnostic store untouched. -/
theorem malformed_response_preserves_diagnostics_witness :
    updateDiagnosticsModel (fun _ => none) "no json here" ["x"] "file:a"
      (fun _ => []) = (fun _ => []) :=
  malformed_response_preserves_diagnostics (fun _ => none) "no json here"
    ["x"] "file:a" (fun _ => []) rfl

/-! ## Fix command: effect on the diagnostic sets

fixCommand (src/src/extension.ts lines 904-935, src/unnamed/part_000
lines 584-614): the model is asked for a fix; on a request failure the
catch shows an error and returns.  On success, only when the active editor
shows the target document, the cleaned code replaces the diagnostic range
and the diagnostic that was fixed is removed from that document entry by
identity (filter d !== diagnostic) and the entry rewritten; sets of other
documents are never touched.  Diagnostic object references are modelled as
identifiers (Nat); the collection as a map from document identity to the
reference list. -/

/-- DiagnosticCollection.set for one document identity. -/
def setDiags (coll : String → List Nat) (uri : String) (ds : List Nat) :
    String → List Nat :=
  fun u => if u = uri then ds else coll u

/-- The effect of one codx.fixCode invocation on the diagnostic
collection, as a function of the request outcome and the active editor
document. -/
def fixCommandDiagUpdate (outcome : Except String String)
    (activeEditorUri : Option String) (docUri : String) (target : Nat)
    (coll : String → List Nat) : String → List Nat :=
  match outcome with
  | Except.error _ => coll
  | Except.ok _ =>
    match activeEditorUri with
    | some u =>
      if u = docUri then
        setDiags coll docUri ((coll docUri).filter (fun d => d != target))
      else coll
    | none => coll

/-- C10: on a successful fix with the target document active, exactly the
fixed diagnostic is removed from that document entry (every other
reference in the entry survives, in order) and every other document entry
is untouched; on a request failure, or when the target document is not
the one in the active editor, or with no active editor, the collection is
not modified at all. -/
theorem fixCommand_frame (docUri : String) (target : Nat)
    (coll : String → List Nat) :
    (∀ r,
      fixCommandDiagUpdate (Except.ok r) (some docUri) docUri target coll docUri
        = (coll docUri).filter (fun d => d != target) ∧
      target ∉
        fixCommandDiagUpdate (Except.ok r) (some docUri) docUri target coll docUri ∧
      (∀ d, d ∈ coll docUri → d ≠ target →
        d ∈ fixCommandDiagUpdate (Except.ok r) (some docUri) docUri target coll
          docUri) ∧
      (∀ u, u ≠ docUri →
        fixCommandDiagUpdate (Except.ok r) (some docUri) docUri target coll u
          = coll u)) ∧
    (∀ e active,
      fixCommandDiagUpdate (Except.error e) active docUri target coll = coll) ∧
    (∀ r u, u ≠ docUri →
      fixCommandDiagUpdate (Except.ok r) (some u) docUri target coll = coll) ∧
    (∀ r, fixCommandDiagUpdate (Except.ok r) none docUri target coll = coll) := by
  refine ⟨fun r => ⟨?_, ?_, ?_, ?_⟩, fun e active => rfl, fun r u hu => ?_, fun r => rfl⟩
  · simp [fixCommandDiagUpdate, setDiags]
  · simp [fixCommandDiagUpdate, setDiags, List.mem_filter]
  · intro d hd hdt
    simp [fixCommandDiagUpdate, setDiags, List.mem_filter, hd, hdt]
  · intro u hu
    simp [fixCommandDiagUpdate, setDiags, hu]
  · simp [fixCommandDiagUpdate, hu]

/-- Witness for C10: fixing the diagnostic with reference 2 on document
"a" removes exactly it from the entry of "a". -/
theorem fixCommand_frame_witness :
    fixCommandDiagUpdate (Except.ok "fixed") (some "a") "a" 2
      (fun u => if u = "a" then [1, 2, 3] else [9]) "a" = [1, 3] := by
  have h := ((fixCommand_frame "a" 2
    (fun u => if u = "a" then [1, 2, 3] else [9])).1 "fixed").1
  rw [h]
  decide

end Codx
